import Mathlib

/-
Formal model of the Cortex block lifecycle core: the blocks cleaner
(compactor package), the partitioned-group garbage collection, and the
store-gateway admission / configuration validation.

The store-gateway definitions are translated from
src/pkg/storegateway/gateway.go.  The blocks cleaner itself is not part of
the sources (only its test suite, src/pkg/compactor/blocks_cleaner_test.go,
is); its definitions below are modelled from the specification (spec.md,
sections 4.4, 4.5 and 4.6) and pinned against the concrete behaviours the
in-repository tests assert.

Times are integers (seconds or milliseconds since epoch, as in the source);
block identifiers are abstracted to naturals; the object bucket is
abstracted to the per-block state that the cleaner inspects and mutates.
-/

namespace Cortex

/-- Sync status health states written in the bucket-index-sync-status object
(bucketindex package). -/
inductive SyncStatusKind
  | Ok
  | CustomerManagedKeyError
  deriving DecidableEq

/-- The bucket-index-sync-status record: `{status, non_queryable_until}`. -/
structure SyncStatus where
  status : SyncStatusKind
  nonQueryableUntil : Int
  deriving DecidableEq

/-- An entry of the bucket-index blocks list: block id with its max-time
(milliseconds). -/
structure IndexBlock where
  blkid : Nat
  maxTime : Int
  deriving DecidableEq

/-- An entry of the bucket-index deletion-marks list: block id with the
creation timestamp of the mark. -/
structure IndexMark where
  blkid : Nat
  creationTime : Int
  deriving DecidableEq

/-- The per-tenant bucket index: list of live blocks and list of block
deletion marks. -/
structure Index where
  blocks : List IndexBlock
  marks : List IndexMark
  deriving DecidableEq

/-- Modelled from the spec: the state of one block directory
`tenant-prefix/block-id/...` in the bucket, as the cleaner observes it.
`hasMeta = false` renders the block a partial block; `mark` is the creation
time of the deletion mark when one exists (the local copy and the global
markers copy are kept in sync by the global-markers bucket decorator, so a
single field represents both); `visitMarker`/`visitGroupExists` describe a
compaction visit marker file and whether a partitioned group referencing the
block still exists; `noMetaSince` is the age reference used for the
partial-block minimum-age check. -/
structure BlockState where
  blkid : Nat
  hasMeta : Bool
  files : List String
  mark : Option Int
  visitMarker : Bool
  visitGroupExists : Bool
  noCompactMark : Bool
  maxTime : Int
  noMetaSince : Int
  deriving DecidableEq

/-- Modelled from the spec: the cleaner configuration options the claims
depend on (`deletion-delay`, the partial-block minimum age, the per-tenant
`retention-period` where 0 disables, and the quarantine TTL used for the
sync status on access-denied). -/
structure BlocksCleanerConfig where
  deletionDelay : Int
  noMetaMinAge : Int
  retentionPeriod : Int
  quarantineTTL : Int
  deriving DecidableEq

/-- Modelled from the spec: the fault environment of one cleaner pass.
`accessDenied` is true when a per-key access-denied error is encountered
during the pass (e.g. reading the bucket index); `deleteFailures` is the set
of block ids whose physical deletion fails. -/
structure CleanEnv where
  accessDenied : Bool
  deleteFailures : List Nat
  deriving DecidableEq

/-- Result of reading the stored bucket index at the start of a pass: a
parsed index, no index, or an index whose bytes fail to parse. -/
inductive StoredIndex
  | found (idx : Index)
  | notFound
  | corrupt
  deriving DecidableEq

/-- The per-tenant state a cleaner pass starts from: the blocks in the
bucket, the stored bucket index, and the previously written sync status. -/
structure TenantState where
  blocks : List BlockState
  storedIndex : StoredIndex
  syncStatus : Option SyncStatus
  deriving DecidableEq

/-- Everything one `cleanUser` invocation produces: the surviving blocks,
the bucket index and sync status it writes, the two per-pass counters
(`blocksCleanedTotal` and `blocksFailedTotal` deltas), and whether the pass
returned an error. -/
structure CleanUserResult where
  blocks : List BlockState
  writtenIndex : Option Index
  syncStatus : SyncStatus
  blocksCleaned : Nat
  blocksFailed : Nat
  passFailed : Bool
  deriving DecidableEq

/-- The bucket-index entry of a block. -/
def IndexBlock.ofBlock (b : BlockState) : IndexBlock :=
  { blkid := b.blkid, maxTime := b.maxTime }

/-- Modelled from the spec: the bucket-index updater output over bucket
truth.  Blocks with a meta file form the blocks list; every deletion mark
found under the tenant markers prefix forms the marks list (spec 4.4,
"Rebuilt from bucket truth on every cleaner pass"). -/
def buildIndex (bs : List BlockState) : Index :=
  { blocks := (bs.filter (fun b => b.hasMeta)).map IndexBlock.ofBlock
    marks := bs.filterMap (fun b =>
      b.mark.map (fun t => { blkid := b.blkid, creationTime := t })) }

/-- Modelled from the spec: `listBlocksOutsideRetentionPeriod` (blocks
cleaner).  Returns the index blocks whose max-time is strictly before the
retention threshold and that do not already appear in the deletion-marks
list. -/
def listBlocksOutsideRetentionPeriod (idx : Index) (threshold : Int) :
    List IndexBlock :=
  let markedIds := idx.marks.map (fun m => m.blkid)
  idx.blocks.filter (fun b =>
    decide (b.maxTime < threshold) && !(decide (b.blkid ∈ markedIds)))

/-- Write a deletion mark (creation time `now`) on a block whose id was
selected for retention marking; other blocks are left untouched. -/
def retentionMark (now : Int) (targets : List Nat) (b : BlockState) :
    BlockState :=
  if b.blkid ∈ targets then { b with mark := some now } else b

/-- Modelled from the spec: ids selected by the retention step of a pass.
When the tenant retention period is positive, these are the blocks of the
freshly built index outside `now - retention` that are not already marked;
a non-positive retention period disables the step. -/
def retentionTargets (cfg : BlocksCleanerConfig) (now : Int)
    (bs : List BlockState) : List Nat :=
  if cfg.retentionPeriod ≤ 0 then []
  else
    (listBlocksOutsideRetentionPeriod (buildIndex bs)
      (now - cfg.retentionPeriod)).map (fun b => b.blkid)

/-- The retention step of a pass: mark every selected block for deletion
with creation time `now`. -/
def applyRetention (cfg : BlocksCleanerConfig) (now : Int)
    (bs : List BlockState) : List BlockState :=
  bs.map (retentionMark now (retentionTargets cfg now bs))

/-- Modelled from the spec: whether the cleaner physically deletes a block
on this pass.  A block with a meta file is deleted when its deletion mark
is at least `deletion-delay` old.  A partial block (no meta file) past the
minimum age is deleted when it carries a deletion mark (regardless of the
mark age, per scenario S2 and the test suite), or when it carries only a
visit marker whose partitioned group no longer exists; otherwise it is left
alone. -/
def shouldDeleteBlock (cfg : BlocksCleanerConfig) (now : Int)
    (b : BlockState) : Bool :=
  if b.hasMeta then
    match b.mark with
    | some t => decide (now - t ≥ cfg.deletionDelay)
    | none => false
  else
    if decide (now - b.noMetaSince > cfg.noMetaMinAge) then
      match b.mark with
      | some _ => true
      | none => b.visitMarker && !b.visitGroupExists
    else false

/-- Modelled from the spec: the deletion loop of a pass.  Every block due
for deletion is attempted; a failed physical delete increments the failed
counter and leaves the block (and its marks) in place, a successful one
removes every key of the block (meta, files and both mark copies) and
increments the cleaned counter; the loop never aborts the tenant.  Returns
(surviving blocks, cleaned count, failed count). -/
def cleanBlocks (cfg : BlocksCleanerConfig) (now : Int) (env : CleanEnv) :
    List BlockState → List BlockState × Nat × Nat
  | [] => ([], 0, 0)
  | b :: bs =>
    let r := cleanBlocks cfg now env bs
    if shouldDeleteBlock cfg now b then
      if b.blkid ∈ env.deleteFailures then (b :: r.1, r.2.1, r.2.2 + 1)
      else (r.1, r.2.1 + 1, r.2.2)
    else (b :: r.1, r.2.1, r.2.2)

/-- The non-queryable-until value carried over from the previously written
sync status (0 when none was ever written). -/
def prevNonQueryableUntil (st : TenantState) : Int :=
  match st.syncStatus with
  | some s => s.nonQueryableUntil
  | none => 0

/-- Modelled from the spec: the body of a successful (not access-denied)
cleaner pass for one tenant, in source order: retention marking over the
freshly built index, then the deletion loop, then the new bucket index and
an `Ok` sync status are written (the quarantine deadline of a previous
status is carried over, not reset). -/
def cleanUserPass (cfg : BlocksCleanerConfig) (now : Int) (env : CleanEnv)
    (st : TenantState) : CleanUserResult :=
  let bs1 := applyRetention cfg now st.blocks
  let r := cleanBlocks cfg now env bs1
  { blocks := r.1
    writtenIndex := some (buildIndex r.1)
    syncStatus := { status := SyncStatusKind.Ok
                    nonQueryableUntil := prevNonQueryableUntil st }
    blocksCleaned := r.2.1
    blocksFailed := r.2.2
    passFailed := false }

/-- Modelled from the spec: `cleanUser`.  When a per-key access-denied
error is encountered the pass deletes nothing, writes a
`CustomerManagedKeyError` sync status with `non-queryable-until =
now + quarantine-ttl`, and still returns without error.  Otherwise the
stored bucket index is read: a corrupt (unparseable) index is discarded and
treated exactly like a missing one — the index is rebuilt from bucket truth
on the same pass without quarantine (spec 4.5, "Bucket index corruption"). -/
def cleanUser (cfg : BlocksCleanerConfig) (now : Int) (env : CleanEnv)
    (st : TenantState) : CleanUserResult :=
  if env.accessDenied = true then
    { blocks := st.blocks
      writtenIndex := none
      syncStatus := { status := SyncStatusKind.CustomerManagedKeyError
                      nonQueryableUntil := now + cfg.quarantineTTL }
      blocksCleaned := 0
      blocksFailed := 0
      passFailed := false }
  else
    match st.storedIndex with
    | StoredIndex.corrupt => cleanUserPass cfg now env st
    | StoredIndex.notFound => cleanUserPass cfg now env st
    | StoredIndex.found _ => cleanUserPass cfg now env st

/-- Partition visit marker states (compactor package). -/
inductive VisitStatus
  | Pending
  | InProgress
  | Completed
  | Failed
  deriving DecidableEq

/-- A partition visit marker: status and the unix time of the last visit. -/
structure PartitionVisitMarker where
  status : VisitStatus
  visitTime : Int
  deriving DecidableEq

/-- A partition of a partitioned group: its id, the ids of its blocks, and
the visit marker stored for it (none when no marker file exists). -/
structure Partition where
  partitionID : Nat
  blocks : List Nat
  marker : Option PartitionVisitMarker
  deriving DecidableEq

/-- A partitioned group descriptor together with the visit markers of its
partitions, as `cleanPartitionedGroupInfo` reads them. -/
structure PartitionedGroupInfo where
  partitionedGroupID : Nat
  partitions : List Partition
  rangeStart : Int
  rangeEnd : Int
  creationTime : Int
  deriving DecidableEq

/-- Whether every partition of the group has a visit marker with status
`Completed`. -/
def allPartitionsCompleted (g : PartitionedGroupInfo) : Bool :=
  g.partitions.all (fun p =>
    match p.marker with
    | some m => decide (m.status = VisitStatus.Completed)
    | none => false)

/-- All block ids appearing in the partitions of a group. -/
def groupBlockIds (g : PartitionedGroupInfo) : List Nat :=
  (g.partitions.map (fun p => p.blocks)).flatten

/-- The tenant objects `cleanPartitionedGroupInfo` touches: the group
descriptor file and the block states. -/
structure GroupCleanState where
  groupFilePresent : Bool
  blocks : List BlockState
  deriving DecidableEq

/-- Modelled from the spec: mark one block of a completed group for
deletion.  A block receives a deletion mark (creation time `now`) when it
appeared in the group, is not already marked, and is still needed by
nothing — a no-compaction mark means the block is still needed and it is
left untouched. -/
def markGroupBlockForDeletion (now : Int) (gids : List Nat)
    (b : BlockState) : BlockState :=
  if b.blkid ∈ gids ∧ b.mark = none ∧ b.noCompactMark = false then
    { b with mark := some now }
  else b

/-- Modelled from the spec: `cleanPartitionedGroupInfo` (blocks cleaner).
If every partition of the group is `Completed`, the group descriptor file
is deleted and every block that appeared in the group and is no longer
needed is marked for deletion; otherwise nothing is touched. -/
def cleanPartitionedGroupInfo (now : Int) (g : PartitionedGroupInfo)
    (st : GroupCleanState) : GroupCleanState :=
  if allPartitionsCompleted g then
    { groupFilePresent := false
      blocks := st.blocks.map (markGroupBlockForDeletion now (groupBlockIds g)) }
  else st

end Cortex

namespace Cortex.storegateway

/-- An httpgrpc error: HTTP status code and message. -/
structure HTTPError where
  code : Nat
  message : String
  deriving DecidableEq

/-- The resource-limit-reached message of the util/limiter package
(`ErrResourceLimitReachedStr`). -/
def errResourceLimitReachedStr : String := "resource limit reached"

/-- The error `checkResourceUtilization` builds on rejection:
`httpgrpc.Errorf(http.StatusServiceUnavailable, "failed to query: %s",
util_limiter.ErrResourceLimitReachedStr)` (gateway.go). -/
def resourceLimitError : HTTPError :=
  { code := 503, message := "failed to query: " ++ errResourceLimitReachedStr }

/-- The store-gateway as the admission-control claims see it.
`resourceBasedLimiter` is `none` when no limiter was configured
(`resourceMonitor == nil` in `newStoreGateway`); `some accepted` abstracts
a configured limiter whose `AcceptNewRequest` call succeeds iff
`accepted`. -/
structure StoreGateway where
  resourceBasedLimiter : Option Bool
  deriving DecidableEq

/-- Translated from gateway.go `checkResourceUtilization`: a nil limiter
always admits; a configured limiter that rejects admission yields the
503 service-unavailable error. -/
def StoreGateway.checkResourceUtilization (g : StoreGateway) :
    Option HTTPError :=
  match g.resourceBasedLimiter with
  | none => none
  | some accepted => if accepted then none else some resourceLimitError

/-- Translated from gateway.go `Series`: check resource utilization, then
forward to the bucket stores.  The stores are abstracted as a function so
that non-invocation is expressible. -/
def StoreGateway.Series {Req Resp : Type} (g : StoreGateway)
    (stores : Req → Resp) (req : Req) : Except HTTPError Resp :=
  match g.checkResourceUtilization with
  | some e => Except.error e
  | none => Except.ok (stores req)

/-- Translated from gateway.go `LabelNames`: same admission gate as
`Series`. -/
def StoreGateway.LabelNames {Req Resp : Type} (g : StoreGateway)
    (stores : Req → Resp) (req : Req) : Except HTTPError Resp :=
  match g.checkResourceUtilization with
  | some e => Except.error e
  | none => Except.ok (stores req)

/-- Translated from gateway.go `LabelValues`: same admission gate as
`Series`. -/
def StoreGateway.LabelValues {Req Resp : Type} (g : StoreGateway)
    (stores : Req → Resp) (req : Req) : Except HTTPError Resp :=
  match g.checkResourceUtilization with
  | some e => Except.error e
  | none => Except.ok (stores req)

/-- The validation errors `Config.Validate` can return.  The hedged-request
and query-protection validators live outside the sources; their outcomes
are abstracted below. -/
inductive ValidationError
  | invalidShardingStrategy
  | invalidTenantShardSize
  | hedgedRequestError
  | queryProtectionError
  deriving DecidableEq

/-- The slice of `validation.Limits` that `Config.Validate` consults. -/
structure Limits where
  storeGatewayTenantShardSize : Int
  deriving DecidableEq

/-- The slice of the store-gateway `Config` that `Validate` consults.
`hedgedRequestValid` and `queryProtectionValid` abstract the results of
`cfg.HedgedRequest.Validate()` and `cfg.QueryProtection.Validate(...)`,
whose code is not part of the sources. -/
structure Config where
  shardingEnabled : Bool
  shardingStrategy : String
  hedgedRequestValid : Bool
  queryProtectionValid : Bool
  deriving DecidableEq

/-- `supportedShardingStrategies` of gateway.go. -/
def supportedShardingStrategies : List String := ["default", "shuffle"]

/-- The tail of `Config.Validate` that runs whether or not sharding is
enabled: hedged-request validation, then query-protection validation. -/
def validateShared (cfg : Config) : Option ValidationError :=
  if cfg.hedgedRequestValid = false then some ValidationError.hedgedRequestError
  else if cfg.queryProtectionValid = false then
    some ValidationError.queryProtectionError
  else none

/-- Translated from gateway.go `Config.Validate`: with sharding enabled,
an unsupported strategy fails first, then a shuffle strategy with a
non-positive tenant shard size fails; in every remaining case the shared
hedged-request and query-protection validation runs. -/
def Config.Validate (cfg : Config) (limits : Limits) :
    Option ValidationError :=
  if cfg.shardingEnabled then
    if cfg.shardingStrategy ∈ supportedShardingStrategies then
      if cfg.shardingStrategy = "shuffle" ∧
          limits.storeGatewayTenantShardSize ≤ 0 then
        some ValidationError.invalidTenantShardSize
      else validateShared cfg
    else some ValidationError.invalidShardingStrategy
  else validateShared cfg

end Cortex.storegateway

namespace Cortex

/-- The deletion loop keeps exactly the blocks that are not due for
deletion or whose physical delete fails, and counts the deleted and failed
blocks. -/
theorem cleanBlocks_eq (cfg : BlocksCleanerConfig) (now : Int)
    (env : CleanEnv) (bs : List BlockState) :
    cleanBlocks cfg now env bs =
      (bs.filter (fun b =>
          !(shouldDeleteBlock cfg now b) || decide (b.blkid ∈ env.deleteFailures)),
       (bs.filter (fun b =>
          shouldDeleteBlock cfg now b && !(decide (b.blkid ∈ env.deleteFailures)))).length,
       (bs.filter (fun b =>
          shouldDeleteBlock cfg now b && decide (b.blkid ∈ env.deleteFailures))).length) := by
  induction bs with
  | nil => rfl
  | cons b bs ih =>
    by_cases h1 : shouldDeleteBlock cfg now b = true
    · by_cases h2 : b.blkid ∈ env.deleteFailures
      · simp [cleanBlocks, ih, h1, h2]
      · simp [cleanBlocks, ih, h1, h2]
    · simp only [Bool.not_eq_true] at h1
      by_cases h2 : b.blkid ∈ env.deleteFailures
      · simp [cleanBlocks, ih, h1, h2]
      · simp [cleanBlocks, ih, h1, h2]

theorem retentionMark_blkid (now : Int) (targets : List Nat)
    (b : BlockState) : (retentionMark now targets b).blkid = b.blkid := by
  unfold retentionMark
  split <;> rfl

theorem retentionMark_hasMeta (now : Int) (targets : List Nat)
    (b : BlockState) : (retentionMark now targets b).hasMeta = b.hasMeta := by
  unfold retentionMark
  split <;> rfl

theorem retentionMark_of_not_target (now : Int) (targets : List Nat)
    (b : BlockState) (h : b.blkid ∉ targets) :
    retentionMark now targets b = b := by
  simp [retentionMark, h]

/-- A block that already carries a deletion mark is never selected by the
retention step (already-marked blocks are not re-marked). -/
theorem marked_not_target (cfg : BlocksCleanerConfig) (now : Int)
    (bs : List BlockState) (b : BlockState) (t : Int)
    (hb : b ∈ bs) (hm : b.mark = some t) :
    b.blkid ∉ retentionTargets cfg now bs := by
  unfold retentionTargets
  split
  · simp
  · intro hmem
    simp only [listBlocksOutsideRetentionPeriod, List.mem_map,
      List.mem_filter, Bool.and_eq_true, Bool.not_eq_true',
      decide_eq_true_eq, decide_eq_false_iff_not] at hmem
    obtain ⟨ib, ⟨⟨_, _, hnotmarked⟩, hid⟩⟩ := hmem
    apply hnotmarked
    rw [hid]
    simp only [buildIndex, List.mem_map, List.mem_filterMap]
    exact ⟨{ blkid := b.blkid, creationTime := t }, ⟨b, hb, by rw [hm]; rfl⟩, rfl⟩

/-- Under distinct block ids, a partial block (no meta file) is never
selected by the retention step: only index blocks, which all have a meta
file, can be selected. -/
theorem nometa_not_target (cfg : BlocksCleanerConfig) (now : Int)
    (bs : List BlockState) (b : BlockState)
    (hnodup : (bs.map (fun x => x.blkid)).Nodup)
    (hb : b ∈ bs) (hmeta : b.hasMeta = false) :
    b.blkid ∉ retentionTargets cfg now bs := by
  unfold retentionTargets
  split
  · simp
  · intro hmem
    simp only [listBlocksOutsideRetentionPeriod, List.mem_map,
      List.mem_filter] at hmem
    obtain ⟨ib, ⟨⟨hibmem, _⟩, hid⟩⟩ := hmem
    simp only [buildIndex, List.mem_map, List.mem_filter] at hibmem
    obtain ⟨a, ⟨hamem, hameta⟩, haib⟩ := hibmem
    have hida : a.blkid = b.blkid := by
      rw [← hid, ← haib]; rfl
    have : a = b := List.inj_on_of_nodup_map hnodup hamem hb hida
    rw [this] at hameta
    rw [hmeta] at hameta
    exact Bool.false_ne_true hameta

/-- A block not selected by the retention step survives it unchanged. -/
theorem mem_applyRetention_self (cfg : BlocksCleanerConfig) (now : Int)
    (bs : List BlockState) (b : BlockState) (hb : b ∈ bs)
    (ht : b.blkid ∉ retentionTargets cfg now bs) :
    b ∈ applyRetention cfg now bs := by
  unfold applyRetention
  have h := retentionMark_of_not_target now (retentionTargets cfg now bs) b ht
  exact h ▸ List.mem_map_of_mem _ hb

/-- Every deletion-mark id of a built index is the id of one of the
blocks it was built from. -/
theorem buildIndex_mark_id_mem (bs : List BlockState) (m : IndexMark)
    (hm : m ∈ (buildIndex bs).marks) : m.blkid ∈ bs.map (fun x => x.blkid) := by
  simp only [buildIndex, List.mem_filterMap] at hm
  obtain ⟨a, hamem, hmap⟩ := hm
  rw [Option.map_eq_some'] at hmap
  obtain ⟨t, _, hmap⟩ := hmap
  rw [← hmap]
  exact List.mem_map_of_mem _ hamem

/-- When no access-denied error occurs, `cleanUser` runs the pass body no
matter what the stored index read returned. -/
theorem cleanUser_eq_pass (cfg : BlocksCleanerConfig) (now : Int)
    (env : CleanEnv) (st : TenantState) (hd : env.accessDenied = false) :
    cleanUser cfg now env st = cleanUserPass cfg now env st := by
  obtain ⟨blocks, storedIndex, syncStatus⟩ := st
  unfold cleanUser
  rw [hd]
  cases storedIndex <;> rfl

/-- Under distinct block ids, a block due for deletion whose physical
delete does not fail leaves no trace in the surviving blocks of the pass:
no surviving block carries its id. -/
theorem id_absent_of_deleted (cfg : BlocksCleanerConfig) (now : Int)
    (env : CleanEnv) (st : TenantState) (b : BlockState)
    (hnodup : (st.blocks.map (fun x => x.blkid)).Nodup)
    (hb : b ∈ st.blocks)
    (ht : b.blkid ∉ retentionTargets cfg now st.blocks)
    (hdel : shouldDeleteBlock cfg now b = true)
    (hnf : b.blkid ∉ env.deleteFailures) :
    b.blkid ∉ (cleanUserPass cfg now env st).blocks.map (fun x => x.blkid) := by
  intro hmem
  simp only [cleanUserPass, cleanBlocks_eq, applyRetention, List.mem_map,
    List.mem_filter] at hmem
  obtain ⟨x, ⟨⟨a, hamem, hax⟩, hxkeep⟩, hxid⟩ := hmem
  have haid : a.blkid = b.blkid := by
    rw [← hxid, ← hax, retentionMark_blkid]
  have hab : a = b := List.inj_on_of_nodup_map hnodup hamem hb haid
  rw [hab, retentionMark_of_not_target now _ b ht] at hax
  rw [← hax] at hxkeep
  rw [hdel] at hxkeep
  simp only [Bool.not_true, Bool.false_or, decide_eq_true_eq] at hxkeep
  exact hnf hxkeep

/-- A block untouched by retention and not due for deletion survives the
pass unchanged. -/
theorem mem_result_of_kept (cfg : BlocksCleanerConfig) (now : Int)
    (env : CleanEnv) (st : TenantState) (b : BlockState)
    (hb : b ∈ st.blocks)
    (ht : b.blkid ∉ retentionTargets cfg now st.blocks)
    (hkeep : shouldDeleteBlock cfg now b = false) :
    b ∈ (cleanUserPass cfg now env st).blocks := by
  simp only [cleanUserPass, cleanBlocks_eq, List.mem_filter]
  refine ⟨mem_applyRetention_self cfg now st.blocks b hb ht, ?_⟩
  rw [hkeep]
  simp

/-- Fixture mirroring the tenant of `testBlocksCleanerWithOptions`:
deletion delay 12, pass time 100. -/
def exCfg : BlocksCleanerConfig :=
  { deletionDelay := 12, noMetaMinAge := 1, retentionPeriod := 0,
    quarantineTTL := 5 }

/-- Fixture: a pass with full bucket access and no delete failures. -/
def exEnv : CleanEnv := { accessDenied := false, deleteFailures := [] }

/-- Fixture: block with meta and no mark. -/
def exB1 : BlockState :=
  { blkid := 1, hasMeta := true, files := ["index"], mark := none,
    visitMarker := false, visitGroupExists := false, noCompactMark := false,
    maxTime := 20, noMetaSince := 0 }

/-- Fixture: block with meta and a mark younger than the deletion delay. -/
def exB2 : BlockState :=
  { blkid := 2, hasMeta := true, files := ["index"], mark := some 89,
    visitMarker := false, visitGroupExists := false, noCompactMark := false,
    maxTime := 30, noMetaSince := 0 }

/-- Fixture: block with meta and a mark past the deletion delay. -/
def exB3 : BlockState :=
  { blkid := 3, hasMeta := true, files := ["index"], mark := some 87,
    visitMarker := false, visitGroupExists := false, noCompactMark := false,
    maxTime := 40, noMetaSince := 0 }

/-- Fixture: block without meta carrying a mark younger than the deletion
delay. -/
def exB4 : BlockState :=
  { blkid := 4, hasMeta := false, files := [], mark := some 89,
    visitMarker := false, visitGroupExists := false, noCompactMark := false,
    maxTime := 0, noMetaSince := 0 }

/-- Fixture: block without meta carrying a mark past the deletion delay. -/
def exB5 : BlockState :=
  { blkid := 5, hasMeta := false, files := [], mark := some 87,
    visitMarker := false, visitGroupExists := false, noCompactMark := false,
    maxTime := 0, noMetaSince := 0 }

/-- Fixture: block without meta and without any mark; its index file stays
in the bucket. -/
def exB6 : BlockState :=
  { blkid := 6, hasMeta := false, files := ["index"], mark := none,
    visitMarker := false, visitGroupExists := false, noCompactMark := false,
    maxTime := 50, noMetaSince := 0 }

/-- Fixture: block without meta carrying only a visit marker whose group no
longer exists. -/
def exB11 : BlockState :=
  { blkid := 11, hasMeta := false, files := [], mark := none,
    visitMarker := true, visitGroupExists := false, noCompactMark := false,
    maxTime := 0, noMetaSince := 0 }

/-- Fixture: the tenant state holding the blocks above. -/
def exSt : TenantState :=
  { blocks := [exB1, exB2, exB3, exB4, exB5, exB6, exB11]
    storedIndex := StoredIndex.notFound
    syncStatus := none }

/-- Claim C1 (amended: restricted to blocks with a meta file — the test
suite and scenario S2 require blocks without meta.json carrying a deletion
mark to be deleted regardless of the mark age): a cleaner pass never
physically deletes a block with a meta file while the creation time of its
deletion mark is younger than `deletion-delay` before the pass time. -/
theorem cleaner_never_deletes_meta_block_with_young_mark
    (cfg : BlocksCleanerConfig) (now : Int) (env : CleanEnv)
    (st : TenantState) (b : BlockState) (t : Int)
    (hb : b ∈ st.blocks) (hmeta : b.hasMeta = true)
    (hmark : b.mark = some t) (hyoung : now - t < cfg.deletionDelay) :
    b ∈ (cleanUser cfg now env st).blocks := by
  by_cases hd : env.accessDenied = true
  · unfold cleanUser
    rw [if_pos hd]
    exact hb
  · rw [cleanUser_eq_pass cfg now env st (by simpa using hd)]
    apply mem_result_of_kept cfg now env st b hb
    · exact marked_not_target cfg now st.blocks b t hb hmark
    · simp only [shouldDeleteBlock, hmeta, hmark, if_true]
      simp only [decide_eq_false_iff_not, not_le]
      omega

/-- Witness for C1 (amended) at the fixture: block 2, whose mark is 11 old
against a delay of 12, survives the pass. -/
theorem cleaner_never_deletes_meta_block_with_young_mark_witness :
    (exB2 ∈ exSt.blocks ∧ exB2.hasMeta = true ∧ exB2.mark = some 89 ∧
      (100 : Int) - 89 < exCfg.deletionDelay) ∧
    exB2 ∈ (cleanUser exCfg 100 exEnv exSt).blocks :=
  ⟨by refine ⟨by decide, rfl, rfl, by decide⟩,
   cleaner_never_deletes_meta_block_with_young_mark exCfg 100 exEnv exSt exB2
     89 (by decide) rfl rfl (by decide)⟩

/-- Counterexample to C1 as stated: block 4 has no meta file and a deletion
mark only 11 old against a delay of 12 (younger than `deletion-delay`), yet
the pass physically deletes it — no surviving block carries its id. -/
theorem cleaner_deletes_young_marked_partial_counterexample :
    exB4 ∈ exSt.blocks ∧ exB4.mark = some 89 ∧
    (100 : Int) - 89 < exCfg.deletionDelay ∧
    exB4.blkid ∉ (cleanUser exCfg 100 exEnv exSt).blocks.map
      (fun x => x.blkid) := by decide

/-- Claim C2: for a block without meta.json older than the minimum age, one
pass (i) fully deletes it with both mark copies when it carries a deletion
mark, (ii) deletes it when it carries only a visit marker with no
associated group, and (iii) leaves it and its remaining files in place when
it carries neither. -/
theorem cleaner_no_meta_block_policy
    (cfg : BlocksCleanerConfig) (now : Int) (env : CleanEnv)
    (st : TenantState) (b : BlockState)
    (hnodup : (st.blocks.map (fun x => x.blkid)).Nodup)
    (hd : env.accessDenied = false)
    (hb : b ∈ st.blocks) (hmeta : b.hasMeta = false)
    (hage : now - b.noMetaSince > cfg.noMetaMinAge)
    (hnf : b.blkid ∉ env.deleteFailures) :
    ((∃ t, b.mark = some t) →
        b.blkid ∉ (cleanUser cfg now env st).blocks.map (fun x => x.blkid) ∧
        ∀ idx, (cleanUser cfg now env st).writtenIndex = some idx →
          b.blkid ∉ idx.marks.map (fun m => m.blkid)) ∧
    (b.mark = none → b.visitMarker = true → b.visitGroupExists = false →
        b.blkid ∉ (cleanUser cfg now env st).blocks.map (fun x => x.blkid)) ∧
    (b.mark = none → (b.visitMarker && !b.visitGroupExists) = false →
        b ∈ (cleanUser cfg now env st).blocks) := by
  rw [cleanUser_eq_pass cfg now env st hd]
  refine ⟨?_, ?_, ?_⟩
  · rintro ⟨t, hmark⟩
    have ht := marked_not_target cfg now st.blocks b t hb hmark
    have hdel : shouldDeleteBlock cfg now b = true := by
      simp [shouldDeleteBlock, hmeta, hmark, hage]
    have habs := id_absent_of_deleted cfg now env st b hnodup hb ht hdel hnf
    refine ⟨habs, ?_⟩
    intro idx hidx
    have hw : (cleanUserPass cfg now env st).writtenIndex =
        some (buildIndex (cleanUserPass cfg now env st).blocks) := rfl
    rw [hw, Option.some_inj] at hidx
    intro hmm
    simp only [List.mem_map] at hmm
    obtain ⟨m, hmmem, hmid⟩ := hmm
    rw [← hidx] at hmmem
    have := buildIndex_mark_id_mem _ m hmmem
    rw [hmid] at this
    exact habs this
  · intro hmark hvm hvg
    have ht := nometa_not_target cfg now st.blocks b hnodup hb hmeta
    have hdel : shouldDeleteBlock cfg now b = true := by
      simp [shouldDeleteBlock, hmeta, hmark, hage, hvm, hvg]
    exact id_absent_of_deleted cfg now env st b hnodup hb ht hdel hnf
  · intro hmark hv
    have ht := nometa_not_target cfg now st.blocks b hnodup hb hmeta
    have hkeep : shouldDeleteBlock cfg now b = false := by
      simp [shouldDeleteBlock, hmeta, hmark, hage, hv]
    exact mem_result_of_kept cfg now env st b hb ht hkeep

/-- Witness for C2 at the fixture: block 5 (no meta, marked) vanishes,
block 11 (visit marker only) vanishes, block 6 (neither) stays. -/
theorem cleaner_no_meta_block_policy_witness :
    ((exSt.blocks.map (fun x => x.blkid)).Nodup ∧ exB5 ∈ exSt.blocks ∧
      exB5.hasMeta = false ∧
      (100 : Int) - exB5.noMetaSince > exCfg.noMetaMinAge) ∧
    exB5.blkid ∉ (cleanUser exCfg 100 exEnv exSt).blocks.map
      (fun x => x.blkid) :=
  ⟨by refine ⟨by decide, by decide, rfl, by decide⟩,
   ((cleaner_no_meta_block_policy exCfg 100 exEnv exSt exB5 (by decide) rfl
      (by decide) rfl (by decide) (by decide)).1 ⟨87, rfl⟩).1⟩

/-- When every block already carries a deletion mark, the retention step
selects nothing (already-marked blocks are never re-marked). -/
theorem retentionTargets_of_all_marked (cfg : BlocksCleanerConfig)
    (now : Int) (bs : List BlockState)
    (h : ∀ b ∈ bs, ∃ t, b.mark = some t) :
    retentionTargets cfg now bs = [] := by
  unfold retentionTargets
  split
  · rfl
  · suffices hres : listBlocksOutsideRetentionPeriod (buildIndex bs)
        (now - cfg.retentionPeriod) = [] by
      rw [hres]
      rfl
    unfold listBlocksOutsideRetentionPeriod
    rw [List.filter_eq_nil_iff]
    intro ib hib
    simp only [buildIndex, List.mem_map, List.mem_filter] at hib
    obtain ⟨a, ⟨hamem, _⟩, haib⟩ := hib
    obtain ⟨t, hat⟩ := h a hamem
    simp only [Bool.and_eq_true, Bool.not_eq_true', decide_eq_true_eq,
      decide_eq_false_iff_not, not_and, not_not]
    intro _
    rw [← haib]
    show a.blkid ∈ (buildIndex bs).marks.map (fun m => m.blkid)
    simp only [buildIndex, List.mem_map, List.mem_filterMap]
    exact ⟨{ blkid := a.blkid, creationTime := t },
      ⟨a, hamem, by rw [hat]; rfl⟩, rfl⟩

/-- When every block already carries a deletion mark, the retention step is
the identity. -/
theorem applyRetention_of_all_marked (cfg : BlocksCleanerConfig)
    (now : Int) (bs : List BlockState)
    (h : ∀ b ∈ bs, ∃ t, b.mark = some t) :
    applyRetention cfg now bs = bs := by
  unfold applyRetention
  rw [retentionTargets_of_all_marked cfg now bs h]
  have hid : retentionMark now ([] : List Nat) = fun b => b := by
    funext b
    simp [retentionMark]
  rw [hid]
  simp

/-- Fixture for C3, mirroring
`TestBlocksCleaner_ShouldContinueOnBlockDeletionFailure`: three blocks with
expired marks; physically deleting block 3 fails. -/
def c3Env : CleanEnv := { accessDenied := false, deleteFailures := [3] }

/-- Fixture: the C3 tenant state (blocks 2, 3, 4, all marked 13 ago with a
delay of 12). -/
def c3St : TenantState :=
  { blocks :=
      [{ blkid := 2, hasMeta := true, files := ["index"], mark := some 87,
         visitMarker := false, visitGroupExists := false,
         noCompactMark := false, maxTime := 30, noMetaSince := 0 },
       { blkid := 3, hasMeta := true, files := ["index"], mark := some 87,
         visitMarker := false, visitGroupExists := false,
         noCompactMark := false, maxTime := 40, noMetaSince := 0 },
       { blkid := 4, hasMeta := true, files := ["index"], mark := some 87,
         visitMarker := false, visitGroupExists := false,
         noCompactMark := false, maxTime := 50, noMetaSince := 0 }]
    storedIndex := StoredIndex.notFound
    syncStatus := none }

/-- Claim C3: when all blocks carry marks past the deletion delay, a pass
with failing physical deletes keeps exactly the failing blocks, counts one
failure per failing block in `blocksFailedTotal` and one success per
deleted block in `blocksCleanedTotal`, completes without error, and keeps
the failing blocks and their deletion marks listed in the rebuilt bucket
index. -/
theorem cleaner_continues_on_block_deletion_failure
    (cfg : BlocksCleanerConfig) (now : Int) (env : CleanEnv)
    (st : TenantState) (hd : env.accessDenied = false)
    (hall : ∀ b ∈ st.blocks, b.hasMeta = true ∧
      ∃ t, b.mark = some t ∧ now - t ≥ cfg.deletionDelay) :
    (cleanUser cfg now env st).passFailed = false ∧
    (cleanUser cfg now env st).blocks =
      st.blocks.filter (fun b => decide (b.blkid ∈ env.deleteFailures)) ∧
    (cleanUser cfg now env st).blocksFailed =
      (st.blocks.filter (fun b => decide (b.blkid ∈ env.deleteFailures))).length ∧
    (cleanUser cfg now env st).blocksCleaned =
      (st.blocks.filter (fun b => !(decide (b.blkid ∈ env.deleteFailures)))).length ∧
    (cleanUser cfg now env st).writtenIndex =
      some (buildIndex (st.blocks.filter
        (fun b => decide (b.blkid ∈ env.deleteFailures)))) ∧
    ∀ idx, (cleanUser cfg now env st).writtenIndex = some idx →
      ∀ b ∈ st.blocks, b.blkid ∈ env.deleteFailures →
        (∃ ib ∈ idx.blocks, ib.blkid = b.blkid) ∧
        ∀ t, b.mark = some t →
          ({ blkid := b.blkid, creationTime := t } : IndexMark) ∈ idx.marks := by
  have hdel : ∀ b ∈ st.blocks, shouldDeleteBlock cfg now b = true := by
    intro b hb
    obtain ⟨hmeta, t, hmark, hexp⟩ := hall b hb
    simp [shouldDeleteBlock, hmeta, hmark, hexp]
  rw [cleanUser_eq_pass cfg now env st hd]
  have hret : applyRetention cfg now st.blocks = st.blocks :=
    applyRetention_of_all_marked cfg now st.blocks
      (fun b hb => ⟨(hall b hb).2.choose, (hall b hb).2.choose_spec.1⟩)
  have hkeepc : st.blocks.filter (fun b =>
      !(shouldDeleteBlock cfg now b) || decide (b.blkid ∈ env.deleteFailures)) =
      st.blocks.filter (fun b => decide (b.blkid ∈ env.deleteFailures)) := by
    apply List.filter_congr
    intro b hb
    rw [hdel b hb]
    simp
  have hclc : st.blocks.filter (fun b =>
      shouldDeleteBlock cfg now b && !(decide (b.blkid ∈ env.deleteFailures))) =
      st.blocks.filter (fun b => !(decide (b.blkid ∈ env.deleteFailures))) := by
    apply List.filter_congr
    intro b hb
    rw [hdel b hb]
    simp
  have hflc : st.blocks.filter (fun b =>
      shouldDeleteBlock cfg now b && decide (b.blkid ∈ env.deleteFailures)) =
      st.blocks.filter (fun b => decide (b.blkid ∈ env.deleteFailures)) := by
    apply List.filter_congr
    intro b hb
    rw [hdel b hb]
    simp
  have hblocks : (cleanUserPass cfg now env st).blocks =
      st.blocks.filter (fun b => decide (b.blkid ∈ env.deleteFailures)) := by
    simp only [cleanUserPass, cleanBlocks_eq, hret, hkeepc]
  refine ⟨rfl, hblocks, ?_, ?_, ?_, ?_⟩
  · simp only [cleanUserPass, cleanBlocks_eq, hret, hflc]
  · simp only [cleanUserPass, cleanBlocks_eq, hret, hclc]
  · show some (buildIndex ((cleanUserPass cfg now env st).blocks)) = _
    rw [hblocks]
  · intro idx hidx b hb hbf
    have hw : (cleanUserPass cfg now env st).writtenIndex =
        some (buildIndex ((cleanUserPass cfg now env st).blocks)) := rfl
    rw [hw, Option.some_inj] at hidx
    rw [hblocks] at hidx
    have hbfil : b ∈ st.blocks.filter
        (fun b => decide (b.blkid ∈ env.deleteFailures)) := by
      rw [List.mem_filter]
      exact ⟨hb, by simpa using hbf⟩
    obtain ⟨hmeta, t, hmark, _⟩ := hall b hb
    constructor
    · refine ⟨IndexBlock.ofBlock b, ?_, rfl⟩
      rw [← hidx]
      simp only [buildIndex, List.mem_map]
      refine ⟨b, ?_, rfl⟩
      rw [List.mem_filter]
      exact ⟨hbfil, hmeta⟩
    · intro t0 hmark0
      rw [← hidx]
      simp only [buildIndex, List.mem_filterMap]
      exact ⟨b, hbfil, by rw [hmark0]; rfl⟩

/-- Witness for C3 at the fixture: blocks 2 and 4 are deleted, block 3
fails and stays: one failure, two cleaned. -/
theorem cleaner_continues_on_block_deletion_failure_witness :
    (c3Env.accessDenied = false ∧
      (∀ b ∈ c3St.blocks, b.hasMeta = true ∧
        ∃ t, b.mark = some t ∧ (100 : Int) - t ≥ exCfg.deletionDelay)) ∧
    (cleanUser exCfg 100 c3Env c3St).blocksFailed = 1 ∧
    (cleanUser exCfg 100 c3Env c3St).blocksCleaned = 2 := by
  refine ⟨⟨rfl, by decide⟩, ?_, ?_⟩
  · rw [(cleaner_continues_on_block_deletion_failure exCfg 100 c3Env c3St rfl
      (by decide)).2.2.1]
    decide
  · rw [(cleaner_continues_on_block_deletion_failure exCfg 100 c3Env c3St rfl
      (by decide)).2.2.2.1]
    decide

/-- The result of an access-denied pass, spelled out. -/
theorem cleanUser_of_access_denied (cfg : BlocksCleanerConfig) (now : Int)
    (env : CleanEnv) (st : TenantState) (hd : env.accessDenied = true) :
    cleanUser cfg now env st =
      { blocks := st.blocks
        writtenIndex := none
        syncStatus := { status := SyncStatusKind.CustomerManagedKeyError
                        nonQueryableUntil := now + cfg.quarantineTTL }
        blocksCleaned := 0
        blocksFailed := 0
        passFailed := false } := by
  unfold cleanUser
  rw [if_pos hd]

/-- Claim C4: a pass that encounters an access-denied error returns
without error, deletes no block, and writes a `CustomerManagedKeyError`
sync status with a positive `non_queryable_until`; the next pass with
access restored writes status `Ok`. -/
theorem cleaner_access_denied_writes_cmk_status
    (cfg : BlocksCleanerConfig) (now now2 : Int) (env env2 : CleanEnv)
    (st : TenantState) (hd : env.accessDenied = true)
    (hd2 : env2.accessDenied = false)
    (hpos : 0 < now + cfg.quarantineTTL) :
    (cleanUser cfg now env st).passFailed = false ∧
    (cleanUser cfg now env st).blocks = st.blocks ∧
    (cleanUser cfg now env st).syncStatus.status =
      SyncStatusKind.CustomerManagedKeyError ∧
    0 < (cleanUser cfg now env st).syncStatus.nonQueryableUntil ∧
    (cleanUser cfg now2 env2
      { blocks := (cleanUser cfg now env st).blocks
        storedIndex := st.storedIndex
        syncStatus := some (cleanUser cfg now env st).syncStatus }).syncStatus.status =
      SyncStatusKind.Ok := by
  rw [cleanUser_of_access_denied cfg now env st hd]
  refine ⟨rfl, rfl, rfl, hpos, ?_⟩
  rw [cleanUser_eq_pass cfg now2 env2 _ hd2]
  rfl

/-- Witness for C4 at the fixture: denied pass at time 100, restored pass
at time 200. -/
theorem cleaner_access_denied_writes_cmk_status_witness :
    (({ accessDenied := true, deleteFailures := [] } : CleanEnv).accessDenied
        = true ∧
      (0 : Int) < 100 + exCfg.quarantineTTL) ∧
    (cleanUser exCfg 100 { accessDenied := true, deleteFailures := [] }
        exSt).syncStatus.status = SyncStatusKind.CustomerManagedKeyError ∧
    0 < (cleanUser exCfg 100 { accessDenied := true, deleteFailures := [] }
        exSt).syncStatus.nonQueryableUntil ∧
    (cleanUser exCfg 200 exEnv
      { blocks := (cleanUser exCfg 100
          { accessDenied := true, deleteFailures := [] } exSt).blocks
        storedIndex := exSt.storedIndex
        syncStatus := some (cleanUser exCfg 100
          { accessDenied := true, deleteFailures := [] } exSt).syncStatus
        }).syncStatus.status = SyncStatusKind.Ok := by
  have h := cleaner_access_denied_writes_cmk_status exCfg 100 200
    { accessDenied := true, deleteFailures := [] } exEnv exSt rfl rfl
    (by decide)
  exact ⟨⟨rfl, by decide⟩, h.2.2.1, h.2.2.2.1, h.2.2.2.2⟩

/-- Claim C10: the pass that restores status `Ok` after a
`CustomerManagedKeyError` pass carries the previously set quarantine
deadline over instead of resetting it, so `non_queryable_until` stays
positive while the status reads `Ok`. -/
theorem cleaner_preserves_non_queryable_until
    (cfg : BlocksCleanerConfig) (now now2 : Int) (env env2 : CleanEnv)
    (st : TenantState) (hd : env.accessDenied = true)
    (hd2 : env2.accessDenied = false)
    (hpos : 0 < now + cfg.quarantineTTL) :
    (cleanUser cfg now2 env2
      { blocks := (cleanUser cfg now env st).blocks
        storedIndex := st.storedIndex
        syncStatus := some (cleanUser cfg now env st).syncStatus
        }).syncStatus.nonQueryableUntil =
      (cleanUser cfg now env st).syncStatus.nonQueryableUntil ∧
    0 < (cleanUser cfg now2 env2
      { blocks := (cleanUser cfg now env st).blocks
        storedIndex := st.storedIndex
        syncStatus := some (cleanUser cfg now env st).syncStatus
        }).syncStatus.nonQueryableUntil := by
  rw [cleanUser_of_access_denied cfg now env st hd]
  rw [cleanUser_eq_pass cfg now2 env2 _ hd2]
  exact ⟨rfl, hpos⟩

/-- Witness for C10 at the fixture: after the restored pass the deadline is
still 105, hence positive. -/
theorem cleaner_preserves_non_queryable_until_witness :
    ((0 : Int) < 100 + exCfg.quarantineTTL) ∧
    (cleanUser exCfg 200 exEnv
      { blocks := (cleanUser exCfg 100
          { accessDenied := true, deleteFailures := [] } exSt).blocks
        storedIndex := exSt.storedIndex
        syncStatus := some (cleanUser exCfg 100
          { accessDenied := true, deleteFailures := [] } exSt).syncStatus
        }).syncStatus.nonQueryableUntil =
      (cleanUser exCfg 100 { accessDenied := true, deleteFailures := [] }
        exSt).syncStatus.nonQueryableUntil ∧
    0 < (cleanUser exCfg 200 exEnv
      { blocks := (cleanUser exCfg 100
          { accessDenied := true, deleteFailures := [] } exSt).blocks
        storedIndex := exSt.storedIndex
        syncStatus := some (cleanUser exCfg 100
          { accessDenied := true, deleteFailures := [] } exSt).syncStatus
        }).syncStatus.nonQueryableUntil := by
  have h := cleaner_preserves_non_queryable_until exCfg 100 200
    { accessDenied := true, deleteFailures := [] } exEnv exSt rfl rfl
    (by decide)
  exact ⟨by decide, h.1, h.2⟩

/-- Claim C5: a pass over a tenant whose stored bucket index fails to
parse completes without error, writes sync status `Ok` (no quarantine),
writes an index rebuilt from bucket truth (its content is exactly the
index built over the surviving blocks), and behaves identically to a pass
that found no index at all — the corrupt index changes nothing about which
blocks are deleted or retained. -/
theorem cleaner_rebuilds_corrupt_index
    (cfg : BlocksCleanerConfig) (now : Int) (env : CleanEnv)
    (st : TenantState) (_hc : st.storedIndex = StoredIndex.corrupt)
    (hd : env.accessDenied = false) :
    (cleanUser cfg now env st).passFailed = false ∧
    (cleanUser cfg now env st).syncStatus.status = SyncStatusKind.Ok ∧
    (cleanUser cfg now env st).writtenIndex =
      some (buildIndex (cleanUser cfg now env st).blocks) ∧
    cleanUser cfg now env st =
      cleanUser cfg now env { st with storedIndex := StoredIndex.notFound } := by
  rw [cleanUser_eq_pass cfg now env st hd,
    cleanUser_eq_pass cfg now env _ hd]
  exact ⟨rfl, rfl, rfl, rfl⟩

/-- Fixture for C5: the fixture tenant with a corrupt stored index. -/
def c5St : TenantState :=
  { blocks := exSt.blocks
    storedIndex := StoredIndex.corrupt
    syncStatus := none }

/-- Witness for C5 at the fixture. -/
theorem cleaner_rebuilds_corrupt_index_witness :
    (c5St.storedIndex = StoredIndex.corrupt ∧ exEnv.accessDenied = false) ∧
    (cleanUser exCfg 100 exEnv c5St).passFailed = false ∧
    (cleanUser exCfg 100 exEnv c5St).syncStatus.status = SyncStatusKind.Ok ∧
    (cleanUser exCfg 100 exEnv c5St).writtenIndex =
      some (buildIndex (cleanUser exCfg 100 exEnv c5St).blocks) ∧
    cleanUser exCfg 100 exEnv c5St =
      cleanUser exCfg 100 exEnv
        { c5St with storedIndex := StoredIndex.notFound } :=
  ⟨⟨rfl, rfl⟩, cleaner_rebuilds_corrupt_index exCfg 100 exEnv c5St rfl rfl⟩

/-- Claim C6: once every partition of a partitioned group has a visit
marker with status `Completed`, `cleanPartitionedGroupInfo` deletes the
group descriptor file and writes a deletion mark on every block of the
group that is unmarked and no longer needed, while blocks still needed
(carrying a no-compaction mark) are left untouched and receive no mark. -/
theorem cleaner_partitioned_group_cleanup
    (now : Int) (g : PartitionedGroupInfo) (st : GroupCleanState)
    (hc : allPartitionsCompleted g = true) :
    (cleanPartitionedGroupInfo now g st).groupFilePresent = false ∧
    (∀ b ∈ st.blocks, b.blkid ∈ groupBlockIds g → b.mark = none →
        b.noCompactMark = false →
        ({ b with mark := some now } : BlockState) ∈
          (cleanPartitionedGroupInfo now g st).blocks) ∧
    (∀ b ∈ st.blocks, b.noCompactMark = true →
        b ∈ (cleanPartitionedGroupInfo now g st).blocks) := by
  unfold cleanPartitionedGroupInfo
  rw [if_pos hc]
  refine ⟨rfl, ?_, ?_⟩
  · intro b hb h1 h2 h3
    have heq : markGroupBlockForDeletion now (groupBlockIds g) b =
        { b with mark := some now } := by
      simp [markGroupBlockForDeletion, h1, h2, h3]
    exact heq ▸ List.mem_map_of_mem _ hb
  · intro b hb h1
    have heq : markGroupBlockForDeletion now (groupBlockIds g) b = b := by
      simp [markGroupBlockForDeletion, h1]
    exact heq ▸ List.mem_map_of_mem _ hb

/-- Fixture for C6, mirroring `TestBlocksCleaner_CleanPartitionedGroupInfo`:
group 123 with one completed partition over blocks 1 and 2; block 2
carries a no-compaction mark. -/
def c6Group : PartitionedGroupInfo :=
  { partitionedGroupID := 123
    partitions :=
      [{ partitionID := 0, blocks := [1, 2]
         marker := some { status := VisitStatus.Completed, visitTime := 98 } }]
    rangeStart := 0
    rangeEnd := 2
    creationTime := 95 }

/-- Fixture: the C6 block states (block 1 plain; block 2 no-compaction). -/
def c6St : GroupCleanState :=
  { groupFilePresent := true
    blocks :=
      [{ blkid := 1, hasMeta := true, files := ["index"], mark := none,
         visitMarker := false, visitGroupExists := false,
         noCompactMark := false, maxTime := 2, noMetaSince := 0 },
       { blkid := 2, hasMeta := true, files := ["index"], mark := none,
         visitMarker := false, visitGroupExists := false,
         noCompactMark := true, maxTime := 2, noMetaSince := 0 }] }

/-- Witness for C6 at the fixture: the group file is gone, block 1 now
carries a deletion mark, block 2 is untouched. -/
theorem cleaner_partitioned_group_cleanup_witness :
    (allPartitionsCompleted c6Group = true) ∧
    (cleanPartitionedGroupInfo 100 c6Group c6St).groupFilePresent = false ∧
    ({ blkid := 1, hasMeta := true, files := ["index"], mark := some 100,
       visitMarker := false, visitGroupExists := false,
       noCompactMark := false, maxTime := 2, noMetaSince := 0 } : BlockState)
      ∈ (cleanPartitionedGroupInfo 100 c6Group c6St).blocks ∧
    ({ blkid := 2, hasMeta := true, files := ["index"], mark := none,
       visitMarker := false, visitGroupExists := false,
       noCompactMark := true, maxTime := 2, noMetaSince := 0 } : BlockState)
      ∈ (cleanPartitionedGroupInfo 100 c6Group c6St).blocks := by
  have h := cleaner_partitioned_group_cleanup 100 c6Group c6St (by decide)
  refine ⟨by decide, h.1, ?_, ?_⟩
  · exact h.2.1
      { blkid := 1, hasMeta := true, files := ["index"], mark := none,
        visitMarker := false, visitGroupExists := false,
        noCompactMark := false, maxTime := 2, noMetaSince := 0 }
      (by decide) (by decide) rfl rfl
  · exact h.2.2
      { blkid := 2, hasMeta := true, files := ["index"], mark := none,
        visitMarker := false, visitGroupExists := false,
        noCompactMark := true, maxTime := 2, noMetaSince := 0 }
      (by decide) rfl

/-- Claim C7: `listBlocksOutsideRetentionPeriod` returns exactly the index
blocks whose max-time is strictly below the threshold and whose id is not
already in the deletion-marks list; a block whose max-time equals the
threshold is not returned, and an already-marked block is never returned. -/
theorem listBlocksOutsideRetentionPeriod_spec (idx : Index)
    (threshold : Int) (b : IndexBlock) :
    (b ∈ listBlocksOutsideRetentionPeriod idx threshold ↔
      b ∈ idx.blocks ∧ b.maxTime < threshold ∧
        b.blkid ∉ idx.marks.map (fun m => m.blkid)) ∧
    (b.maxTime = threshold →
      b ∉ listBlocksOutsideRetentionPeriod idx threshold) ∧
    (b.blkid ∈ idx.marks.map (fun m => m.blkid) →
      b ∉ listBlocksOutsideRetentionPeriod idx threshold) := by
  have hiff : b ∈ listBlocksOutsideRetentionPeriod idx threshold ↔
      b ∈ idx.blocks ∧ b.maxTime < threshold ∧
        b.blkid ∉ idx.marks.map (fun m => m.blkid) := by
    simp [listBlocksOutsideRetentionPeriod, List.mem_filter, and_assoc]
  refine ⟨hiff, ?_, ?_⟩
  · intro heq hmem
    have := (hiff.mp hmem).2.1
    omega
  · intro hmarked hmem
    exact (hiff.mp hmem).2.2 hmarked

/-- Fixture for C7, mirroring
`TestBlocksCleaner_ListBlocksOutsideRetentionPeriod`: three blocks whose
max-times are 6000, 7000, 8000; block 1 is already marked. -/
def c7Idx : Index :=
  { blocks := [{ blkid := 1, maxTime := 6000 },
               { blkid := 2, maxTime := 7000 },
               { blkid := 3, maxTime := 8000 }]
    marks := [{ blkid := 1, creationTime := 0 }] }

/-- Witness for C7 at the fixture with threshold 7000: block 2 sits exactly
at the threshold and is not returned; the already-marked block 1 is not
returned; block 2 with a threshold of 8000 is returned. -/
theorem listBlocksOutsideRetentionPeriod_spec_witness :
    (({ blkid := 2, maxTime := 7000 } : IndexBlock).maxTime = 7000 ∧
      ({ blkid := 2, maxTime := 7000 } : IndexBlock) ∉
        listBlocksOutsideRetentionPeriod c7Idx 7000) ∧
    (({ blkid := 1, maxTime := 6000 } : IndexBlock).blkid ∈
        c7Idx.marks.map (fun m => m.blkid) ∧
      ({ blkid := 1, maxTime := 6000 } : IndexBlock) ∉
        listBlocksOutsideRetentionPeriod c7Idx 7000) ∧
    ({ blkid := 2, maxTime := 7000 } : IndexBlock) ∈
      listBlocksOutsideRetentionPeriod c7Idx 8000 :=
  ⟨⟨rfl, (listBlocksOutsideRetentionPeriod_spec c7Idx 7000
      { blkid := 2, maxTime := 7000 }).2.1 rfl⟩,
   ⟨by decide, (listBlocksOutsideRetentionPeriod_spec c7Idx 7000
      { blkid := 1, maxTime := 6000 }).2.2 (by decide)⟩,
   (listBlocksOutsideRetentionPeriod_spec c7Idx 8000
      { blkid := 2, maxTime := 7000 }).1.mpr ⟨by decide, by decide, by decide⟩⟩

end Cortex

namespace Cortex.storegateway

/-- Claim C8: for `Series`, `LabelNames` and `LabelValues`, a configured
resource-based limiter that rejects admission makes the call return the
retriable 503 service-unavailable error carrying the
resource-limit-reached message, and the bucket stores are not invoked
(the result is the same whatever the stores would answer); with no limiter
configured the admission check passes and the request is forwarded to the
stores. -/
theorem storegateway_resource_limit_admission {Req Resp : Type}
    (g : StoreGateway) (stores stores2 : Req → Resp) (req : Req) :
    (g.resourceBasedLimiter = some false →
      g.Series stores req = Except.error resourceLimitError ∧
      g.LabelNames stores req = Except.error resourceLimitError ∧
      g.LabelValues stores req = Except.error resourceLimitError ∧
      g.Series stores req = g.Series stores2 req ∧
      g.LabelNames stores req = g.LabelNames stores2 req ∧
      g.LabelValues stores req = g.LabelValues stores2 req ∧
      resourceLimitError.code = 503 ∧
      (∃ pre post : String,
        resourceLimitError.message = pre ++ errResourceLimitReachedStr ++ post)) ∧
    (g.resourceBasedLimiter = none →
      g.Series stores req = Except.ok (stores req) ∧
      g.LabelNames stores req = Except.ok (stores req) ∧
      g.LabelValues stores req = Except.ok (stores req)) := by
  constructor
  · intro h
    have hc : g.checkResourceUtilization = some resourceLimitError := by
      simp [StoreGateway.checkResourceUtilization, h]
    refine ⟨?_, ?_, ?_, ?_, ?_, ?_, rfl,
      ⟨"failed to query: ", "", by decide⟩⟩ <;>
      simp [StoreGateway.Series, StoreGateway.LabelNames,
        StoreGateway.LabelValues, hc]
  · intro h
    have hc : g.checkResourceUtilization = none := by
      simp [StoreGateway.checkResourceUtilization, h]
    refine ⟨?_, ?_, ?_⟩ <;>
      simp [StoreGateway.Series, StoreGateway.LabelNames,
        StoreGateway.LabelValues, hc]

/-- Fixture for C8: a gateway whose limiter rejects. -/
def c8Rejecting : StoreGateway := { resourceBasedLimiter := some false }

/-- Fixture for C8: a gateway with no limiter configured. -/
def c8NoLimiter : StoreGateway := { resourceBasedLimiter := none }

/-- Witness for C8: with a rejecting limiter, `Series` over `Nat` returns
the 503 error; with no limiter it forwards to the stores. -/
theorem storegateway_resource_limit_admission_witness :
    (c8Rejecting.resourceBasedLimiter = some false ∧
      c8Rejecting.Series (fun n : Nat => n + 1) 41 =
        Except.error resourceLimitError) ∧
    (c8NoLimiter.resourceBasedLimiter = none ∧
      c8NoLimiter.Series (fun n : Nat => n + 1) 41 = Except.ok 42) :=
  ⟨⟨rfl, ((storegateway_resource_limit_admission c8Rejecting
      (fun n : Nat => n + 1) (fun n : Nat => n) 41).1 rfl).1⟩,
   ⟨rfl, ((storegateway_resource_limit_admission c8NoLimiter
      (fun n : Nat => n + 1) (fun n : Nat => n) 41).2 rfl).1⟩⟩

/-- Claim C9: with sharding enabled, `Config.Validate` returns the
invalid-sharding-strategy error when the strategy is neither `default` nor
`shuffle`, and the invalid-tenant-shard-size error when the strategy is
`shuffle` and the tenant shard size is not positive; with sharding
disabled neither of those two errors can be returned (only the
hedged-request and query-protection validations can fail). -/
theorem storegateway_config_validate_spec (cfg : Config) (limits : Limits) :
    (cfg.shardingEnabled = true →
      cfg.shardingStrategy ∉ supportedShardingStrategies →
      Config.Validate cfg limits = some ValidationError.invalidShardingStrategy) ∧
    (cfg.shardingEnabled = true → cfg.shardingStrategy = "shuffle" →
      limits.storeGatewayTenantShardSize ≤ 0 →
      Config.Validate cfg limits = some ValidationError.invalidTenantShardSize) ∧
    (cfg.shardingEnabled = false →
      Config.Validate cfg limits ≠ some ValidationError.invalidShardingStrategy ∧
      Config.Validate cfg limits ≠ some ValidationError.invalidTenantShardSize) := by
  refine ⟨?_, ?_, ?_⟩
  · intro h1 h2
    simp [Config.Validate, h1, h2]
  · intro h1 h2 h3
    have hmem : ("shuffle" : String) ∈ supportedShardingStrategies := by
      decide
    simp [Config.Validate, h1, h2, h3, hmem]
  · intro h1
    simp only [Config.Validate, h1, Bool.false_eq_true, if_false]
    unfold validateShared
    constructor <;> split <;> simp_all

/-- Fixture for C9: sharding enabled with an unsupported strategy. -/
def c9BadStrategy : Config :=
  { shardingEnabled := true, shardingStrategy := "random",
    hedgedRequestValid := true, queryProtectionValid := true }

/-- Fixture for C9: shuffle sharding. -/
def c9Shuffle : Config :=
  { shardingEnabled := true, shardingStrategy := "shuffle",
    hedgedRequestValid := true, queryProtectionValid := true }

/-- Fixture for C9: the limits at the default tenant shard size 0. -/
def c9Limits : Limits := { storeGatewayTenantShardSize := 0 }

/-- Witness for C9: strategy `random` fails as invalid strategy; shuffle
with shard size 0 fails as invalid tenant shard size. -/
theorem storegateway_config_validate_spec_witness :
    (c9BadStrategy.shardingEnabled = true ∧
      c9BadStrategy.shardingStrategy ∉ supportedShardingStrategies ∧
      Config.Validate c9BadStrategy c9Limits =
        some ValidationError.invalidShardingStrategy) ∧
    (c9Shuffle.shardingStrategy = "shuffle" ∧
      c9Limits.storeGatewayTenantShardSize ≤ 0 ∧
      Config.Validate c9Shuffle c9Limits =
        some ValidationError.invalidTenantShardSize) :=
  ⟨⟨rfl, by decide,
    (storegateway_config_validate_spec c9BadStrategy c9Limits).1 rfl (by decide)⟩,
   ⟨rfl, by decide,
    (storegateway_config_validate_spec c9Shuffle c9Limits).2.1 rfl rfl
      (by decide)⟩⟩

end Cortex.storegateway
